import Mathlib

/-!
# Verification of the image resource layer of `contour` (terminal/Image.*,
# terminal_view/ImageRenderer.*)

A shallow embedding in Lean 4 of the image pool, reference counting,
fragment slicing and renderer-cache code, together with theorems settling
the specification claims.

Conventions of the embedding:
* Byte buffers (`Image::Data = std::vector<uint8_t>`) are `List Nat`.
* `Size` and `Coordinate` (from `terminal/Size.h` / `terminal/Commands.h`,
  declared outside the provided sources) carry `Nat` components; every
  claim exercises only non-negative dimensions, where C++ `int` arithmetic
  and truncating division agree with `Nat` arithmetic and `Nat` division.
* The mutable `refCount_` field is C++ `int`; it is embedded as `Int`
  (claims stay far from the 2^31 wrap).
* Object identity (the address of an `Image` inside the pool's
  `std::list`) is embedded as a `Nat` id allocated by the pool.
* Stateful member functions become functions from pool state to pool
  state; an `ImageRef`'s `image_` pointer (possibly `nullptr` after a
  move) is `Option Nat`.
* Reading through a raw pointer past a buffer's end
  (`&v[a] ... &v[a]+n` in `ImageFragment::data`) is undefined behaviour in
  C++; the embedding models such memory as the byte 0 via `List.getD`.
-/

namespace terminal

/-- `terminal::Size` — width/height in pixels or grid cells. -/
structure Size where
  width : Nat
  height : Nat
deriving DecidableEq, Repr

/-- `terminal::Coordinate` — row/column coordinate. -/
structure Coordinate where
  row : Nat
  column : Nat
deriving DecidableEq, Repr

/-- `terminal::RGBColor` — an 8-bit-per-channel RGB color. -/
structure RGBColor where
  red : Nat
  green : Nat
  blue : Nat
deriving DecidableEq, Repr

/-- Error kinds of the specification (§7); the enumeration itself appears
nowhere in the C++ sources. -/
inductive ImageError where
  | InvalidImageData
  | SizeMismatch
  | OutOfBounds
  | OutOfRange
  | InvalidCellSpan
  | RefcountUnderflow
deriving DecidableEq, Repr

/-- `terminal::Image` (Image.h:60-104): raw RGBA buffer, pixel size and the
mutable reference count.  The `deleter_` callback is not stored as data:
the pool always wires it to `ImagePool::remove` on the owning pool, which
the pool-level `unref` below performs directly. -/
structure Image where
  data : List Nat
  size : Size
  refCount : Int
deriving DecidableEq, Repr

/-- `Image::width()` (Image.h:79). -/
def Image.width (img : Image) : Nat := img.size.width

/-- `Image::height()` (Image.h:80). -/
def Image.height (img : Image) : Nat := img.size.height

/-- Reads `n` bytes starting at byte index `start`, as
`std::copy(&buf[start], &buf[start] + n, ...)` does; bytes past the end of
the buffer (undefined behaviour in C++) read as 0. -/
def readBytes (buf : List Nat) (start n : Nat) : List Nat :=
  (List.range n).map (fun i => buf.getD (start + i) 0)

/-- `terminal::ImageFragment` (Image.h:171-216): the referenced image, a
pixel offset into it, and the fragment size.  The `ImageRef` member is
embedded by the referent `Image` value itself, since the fragment only
reads through `image_.get()`. -/
structure ImageFragment where
  image : Image
  offset : Coordinate
  size : Size
deriving DecidableEq, Repr

/-- `ImageFragment::data()` (Image.h:194-210): for each `y` in
`[0, size_.height)` copies `size_.width * 4` bytes of the parent buffer
starting at byte index `y * size_.width * 4`.  Note that the source start
uses the fragment's own width as row stride and never consults `offset_`. -/
def ImageFragment.data (f : ImageFragment) : List Nat :=
  (List.range f.size.height).flatMap
    (fun y => readBytes f.image.data (y * f.size.width * 4) (f.size.width * 4))

/-- Follows the words of claim C1 (spec §4.3), for comparison with
`ImageFragment.data`: a buffer whose `y`-th row is the `size.width * 4`
bytes of the parent buffer starting at byte index
`(offset.row + y) * parentWidth * 4`. -/
def fragmentDataClaimed (parent : Image) (offset : Coordinate) (size : Size) : List Nat :=
  (List.range size.height).flatMap
    (fun y => readBytes parent.data ((offset.row + y) * parent.width * 4) (size.width * 4))

/-- Modelled from the spec: `Size` division (`terminal/Size.h` `operator/`,
declared outside the provided sources).  Per spec §4.4 it divides per axis
independently with integer truncation and fails with `InvalidCellSpan`
when either divisor component is zero (division by zero being undefined in
the C++ source). -/
def Size.divE (a b : Size) : Except ImageError Size :=
  if b.width = 0 ∨ b.height = 0 then .error .InvalidCellSpan
  else .ok ⟨a.width / b.width, a.height / b.height⟩

/-- `terminal::RasterizedImage` (Image.h:221-252).  The `ImageRef` member
is embedded by the referent `Image` value, since `cellSize`/`fragment`
only read through `image.get()`.  Alignment and resize policies are
configuration unused by the functions under verification and are not
modelled. -/
structure RasterizedImage where
  image : Image
  cellSpan : Size
deriving DecidableEq, Repr

/-- `RasterizedImage::cellSize()` (Image.h:235-238):
`image.get().size() / cellSpan`. -/
def RasterizedImage.cellSize (r : RasterizedImage) : Except ImageError Size :=
  r.image.size.divE r.cellSpan

/-- `RasterizedImage::fragment(_pos)` (Image.h:241-251): builds the pixel
offset `(pos.row * width, pos.column * (width / cellSpan.width))` and
returns a fragment of size `cellSpan`.  The source performs no range check
on `_pos`. -/
def RasterizedImage.fragment (r : RasterizedImage) (pos : Coordinate) : ImageFragment :=
  let cellUnitWidth := r.image.width / r.cellSpan.width
  { image := r.image
    offset := ⟨pos.row * r.image.width, pos.column * cellUnitWidth⟩
    size := r.cellSpan }

/-- `terminal::ImagePool` (Image.h:284-304): the `std::list<Image>` of
live images, each entry tagged with its identity (the list node address in
C++, a `Nat` id allocated by `nextId` here).  The `instances_` list of
`RasterizedImage` is never touched by the functions under verification and
is not modelled. -/
structure ImagePool where
  images : List (Nat × Image)
  nextId : Nat
deriving DecidableEq, Repr

/-- `ImagePool::imageCount()` (declared Image.h:295): number of live
images in the pool. -/
def ImagePool.imageCount (p : ImagePool) : Nat := p.images.length

/-- The image a given identity refers to: first pool entry with that id
(C++ dereferences the address directly; this coincides on every pool the
code can build, where identities are distinct). -/
def ImagePool.lookup (p : ImagePool) (id : Nat) : Option Image :=
  (p.images.find? (fun e => e.1 == id)).map (fun e => e.2)

/-- The reference count of the image a given identity refers to. -/
def ImagePool.refCountOf (p : ImagePool) (id : Nat) : Option Int :=
  (p.lookup id).map Image.refCount

/-- Applies `f` to the image(s) with the given identity; on pools built by
the code identities are distinct, so this is the C++ in-place mutation of
one `Image` object. -/
def ImagePool.modifyImage (p : ImagePool) (id : Nat) (f : Image → Image) : ImagePool :=
  { p with images := p.images.map (fun e => if e.1 == id then (e.1, f e.2) else e) }

/-- `ImagePool::remove(_image)` (Image.cpp:41-48): scans for the entry
with the given identity and erases the first match; a silent no-op when
the image is not present. -/
def ImagePool.remove (p : ImagePool) (id : Nat) : ImagePool :=
  { p with images := p.images.eraseP (fun e => e.1 == id) }

/-- `Image::ref()` (Image.h:82-85): increments the reference count. -/
def Image.ref (p : ImagePool) (id : Nat) : ImagePool :=
  p.modifyImage id (fun img => { img with refCount := img.refCount + 1 })

/-- `--refCount_;` — the decrement half of `Image::unref()` (Image.h:89). -/
def decRefCount (p : ImagePool) (id : Nat) : ImagePool :=
  p.modifyImage id (fun img => { img with refCount := img.refCount - 1 })

/-- `Image::unref()` (Image.h:87-95): decrements the reference count and,
exactly when the new count is 0, invokes the deleter — wired by
`ImagePool::create` to `ImagePool::remove` on the owning pool — before
returning.  The second component counts deleter invocations.  A dangling
identity (image already erased: use-after-free in C++) leaves the pool
unchanged. -/
def Image.unref (p : ImagePool) (id : Nat) : ImagePool × Nat :=
  match (decRefCount p id).refCountOf id with
  | some c => if c = 0 then ((decRefCount p id).remove id, 1) else (decRefCount p id, 0)
  | none => (decRefCount p id, 0)

/-- `ImagePool::create(Image::Data, Size)` (Image.cpp:18-22):
`emplace_back` constructs the `Image` with `refCount_ = 0` (Image.h:70-75)
and deleter `remove` on this pool; `ImageRef{images_.back()}`
(Image.h:109-113) then refs it.  Returns the new pool state and the
identity the returned `ImageRef` holds. -/
def ImagePool.create (p : ImagePool) (data : List Nat) (size : Size) : ImagePool × Nat :=
  let id := p.nextId
  let p1 : ImagePool := { images := p.images ++ [(id, ⟨data, size, 0⟩)], nextId := id + 1 }
  (Image.ref p1 id, id)

/-- The loop body of `ImagePool::create(std::vector<RGBColor> const&, Size)`
(Image.cpp:29-36): sequentially writes `red, green, blue, 0xFF` quads into
the buffer at index `i`.  `List.set` drops a write past the buffer's end
(`data[i++]` out of range is undefined behaviour in C++). -/
def writeColors : List Nat → Nat → List RGBColor → List Nat
  | buf, _, [] => buf
  | buf, i, c :: rest =>
      writeColors ((((buf.set i c.red).set (i + 1) c.green).set (i + 2) c.blue).set
        (i + 3) 255) (i + 4) rest

/-- `ImagePool::create(std::vector<RGBColor> const&, Size)`
(Image.cpp:24-39): resizes a zero-filled byte buffer to
`width * height * 4`, writes one RGBA quad per input color with alpha
`0xFF`, and delegates to the RGBA overload. -/
def ImagePool.createRGB (p : ImagePool) (colors : List RGBColor) (size : Size) :
    ImagePool × Nat :=
  let data := writeColors (List.replicate (size.width * size.height * 4) 0) 0 colors
  p.create data size

/-- `ImageRef::~ImageRef()` (Image.h:115-119): unrefs when still holding
an image.  Second component counts deleter invocations. -/
def ImageRef.destroy (p : ImagePool) (r : Option Nat) : ImagePool × Nat :=
  match r with
  | some id => Image.unref p id
  | none => (p, 0)

/-- `ImageRef::ImageRef(ImageRef const&)` (Image.h:121-125): copies the
pointer and refs the image (copying a moved-from handle dereferences
`nullptr` in C++; the embedding leaves the pool unchanged there). -/
def ImageRef.copy (p : ImagePool) (r : Option Nat) : ImagePool × Option Nat :=
  match r with
  | some id => (Image.ref p id, some id)
  | none => (p, none)

/-- `ImageRef::operator=(ImageRef&&)` (Image.h:144-152): when source and
target are distinct objects (`&v != this`), steals the pointer and nulls
the source; the previously-held referent is not unrefed.  Returns
(pool, new target pointer, new source pointer). -/
def ImageRef.moveAssign (p : ImagePool) (self : Bool) (this v : Option Nat) :
    ImagePool × Option Nat × Option Nat :=
  if self then (p, this, v) else (p, v, none)

/-- The pool effect of one copy-construction of an `ImageRef` holding a
given identity, for iteration. -/
def copyStep (id : Nat) (p : ImagePool) : ImagePool := (ImageRef.copy p (some id)).fst

/-- The pool effect of destroying one `ImageRef` holding a given identity,
for iteration. -/
def destroyStep (id : Nat) (p : ImagePool) : ImagePool := (ImageRef.destroy p (some id)).fst

/-- `terminal::view::ImageRenderer` (ImageRenderer.h:42-71): the owned
`ImagePool`, the configured cell pixel size, and the atlas cache.  An
atlas entry maps an (image identity, slice offset) key to a texture
region; its exact payload is irrelevant here, only which entries exist.
The external `CommandListener` sink is not modelled. -/
structure ImageRenderer where
  imagePool : ImagePool
  cellSize : Size
  atlas : List ((Nat × Size) × Nat)
deriving DecidableEq, Repr

/-- `ImageRenderer::clearCache()` (ImageRenderer.cpp:49-52): calls
`atlas_.clear()` and nothing else.  Modelled from the spec:
`crispy::atlas::MetadataTextureAtlas::clear` is declared outside the
provided sources; per spec §4.5 it discards all atlas cache entries
(releasing the backing texture storage), leaving the cache empty. -/
def ImageRenderer.clearCache (r : ImageRenderer) : ImageRenderer :=
  { r with atlas := [] }

/-- The specification's per-pixel expansion (spec §4.2): each RGB triple
becomes an RGBA quad with alpha `0xFF`; stated from the spec's words, for
comparison with the loop `writeColors` of the source. -/
def rgbaQuad (c : RGBColor) : List Nat := [c.red, c.green, c.blue, 255]

/-! ## Supporting lemmas -/

theorem readBytes_length (buf : List Nat) (s n : Nat) : (readBytes buf s n).length = n := by
  simp [readBytes]

theorem flatMap_range_length {α : Type} (g : Nat → List α) (L0 : Nat)
    (hg : ∀ y, (g y).length = L0) (h : Nat) :
    ((List.range h).flatMap g).length = h * L0 := by
  induction h with
  | zero => simp
  | succ n ih =>
      rw [List.range_succ, List.flatMap_append]
      simp [ih, hg, Nat.succ_mul]

theorem flatMap_range_drop_take {α : Type} :
    ∀ (h : Nat) (g : Nat → List α) (L0 y : Nat), (∀ z, (g z).length = L0) → y < h →
      ((((List.range h).flatMap g).drop (y * L0)).take L0) = g y := by
  intro h
  induction h with
  | zero => intro g L0 y _ hy; exact absurd hy (Nat.not_lt_zero y)
  | succ n ih =>
      intro g L0 y hg hy
      rw [List.range_succ_eq_map, List.flatMap_cons, List.flatMap_map]
      cases y with
      | zero =>
          rw [Nat.zero_mul, List.drop_zero]
          have h0 := hg 0
          rw [← h0, List.take_append_of_le_length (Nat.le_refl _), List.take_length]
      | succ y =>
          have harith : (y + 1) * L0 = (g 0).length + y * L0 := by
            rw [hg 0]; ring
          rw [harith, List.drop_append]
          exact ih (fun z => g (z + 1)) L0 y (fun z => hg (z + 1)) (by omega)

theorem lookup_modifyImage (p : ImagePool) (id : Nat) (f : Image → Image) :
    (p.modifyImage id f).lookup id = (p.lookup id).map f := by
  unfold ImagePool.lookup ImagePool.modifyImage
  simp only [List.find?_map]
  have hpred : ((fun e : Nat × Image => e.1 == id) ∘
      (fun e : Nat × Image => if e.1 == id then (e.1, f e.2) else e)) =
      (fun e : Nat × Image => e.1 == id) := by
    funext e
    by_cases h : e.1 = id <;> simp [h]
  rw [hpred]
  cases hf : p.images.find? (fun e => e.1 == id) with
  | none => simp
  | some e =>
      have he : e.1 = id := by simpa using List.find?_some hf
      simp [he]

theorem imageCount_modifyImage (p : ImagePool) (id : Nat) (f : Image → Image) :
    (p.modifyImage id f).imageCount = p.imageCount := by
  simp [ImagePool.modifyImage, ImagePool.imageCount]

theorem refCountOf_modifyCount (p : ImagePool) (id : Nat) (φ : Int → Int) :
    (p.modifyImage id (fun img => { img with refCount := φ img.refCount })).refCountOf id
      = (p.refCountOf id).map φ := by
  unfold ImagePool.refCountOf
  rw [lookup_modifyImage]
  cases p.lookup id <;> simp

theorem refCountOf_ref (p : ImagePool) (id : Nat) :
    (Image.ref p id).refCountOf id = (p.refCountOf id).map (· + 1) :=
  refCountOf_modifyCount p id (· + 1)

theorem refCountOf_decRefCount (p : ImagePool) (id : Nat) :
    (decRefCount p id).refCountOf id = (p.refCountOf id).map (· - 1) :=
  refCountOf_modifyCount p id (· - 1)

theorem imageCount_decRefCount (p : ImagePool) (id : Nat) :
    (decRefCount p id).imageCount = p.imageCount :=
  imageCount_modifyImage p id _

theorem unref_of_ne_one (p : ImagePool) (id : Nat) (c : Int)
    (h : p.refCountOf id = some c) (hc : c ≠ 1) :
    Image.unref p id = (decRefCount p id, 0) := by
  have h1 : (decRefCount p id).refCountOf id = some (c - 1) := by
    rw [refCountOf_decRefCount, h, Option.map_some']
  unfold Image.unref
  rw [h1]
  simp only [Prod.mk.injEq]
  rw [if_neg (by omega)]

theorem unref_of_one (p : ImagePool) (id : Nat)
    (h : p.refCountOf id = some 1) :
    Image.unref p id = ((decRefCount p id).remove id, 1) := by
  have h1 : (decRefCount p id).refCountOf id = some 0 := by
    rw [refCountOf_decRefCount, h, Option.map_some']
    norm_num
  unfold Image.unref
  rw [h1]
  simp

theorem imageCount_remove_of_present (p : ImagePool) (id : Nat) (img : Image)
    (h : p.lookup id = some img) : (p.remove id).imageCount + 1 = p.imageCount := by
  unfold ImagePool.lookup at h
  obtain ⟨e, hfind, -⟩ := Option.map_eq_some'.mp h
  have hmem := List.mem_of_find?_eq_some hfind
  have hp := List.find?_some hfind
  unfold ImagePool.remove ImagePool.imageCount
  rw [List.length_eraseP_of_mem hmem hp]
  have hpos : 0 < p.images.length := List.length_pos.mpr (List.ne_nil_of_mem hmem)
  omega

theorem refCountOf_copyStep_iterate (p : ImagePool) (id : Nat) (c : Int) (n : Nat)
    (h : p.refCountOf id = some c) :
    ((copyStep id)^[n] p).refCountOf id = some (c + n) := by
  induction n with
  | zero => simpa using h
  | succ n ih =>
      rw [Function.iterate_succ_apply']
      show (Image.ref ((copyStep id)^[n] p) id).refCountOf id = _
      rw [refCountOf_ref, ih, Option.map_some']
      congr 1
      push_cast
      ring

theorem refCountOf_destroyStep_iterate (id : Nat) :
    ∀ (m : Nat) (p : ImagePool) (c : Int), p.refCountOf id = some c → (m : Int) < c →
      ((destroyStep id)^[m] p).refCountOf id = some (c - m) := by
  intro m
  induction m with
  | zero => intro p c h _; simpa using h
  | succ m ih =>
      intro p c h hc
      rw [Function.iterate_succ_apply]
      have hstep : destroyStep id p = decRefCount p id := by
        show (Image.unref p id).fst = _
        rw [unref_of_ne_one p id c h (by omega)]
      have hdec : (destroyStep id p).refCountOf id = some (c - 1) := by
        rw [hstep, refCountOf_decRefCount, h, Option.map_some']
      have := ih (destroyStep id p) (c - 1) hdec (by push_cast at hc; omega)
      rw [this]
      congr 1
      push_cast
      ring

theorem set_append_right {α : Type} (l₁ l₂ : List α) (k : Nat) (a : α) :
    (l₁ ++ l₂).set (l₁.length + k) a = l₁ ++ l₂.set k a := by
  rw [List.set_append]
  simp

theorem writeColors_length (colors : List RGBColor) :
    ∀ (buf : List Nat) (i : Nat), (writeColors buf i colors).length = buf.length := by
  induction colors with
  | nil => intro buf i; rfl
  | cons c rest ih =>
      intro buf i
      show (writeColors _ (i + 4) rest).length = _
      rw [ih]
      simp

theorem set_quad (l₁ R : List Nat) (r g b : Nat) :
    ((((l₁ ++ (0 :: 0 :: 0 :: 0 :: R)).set l₁.length r).set (l₁.length + 1) g).set
        (l₁.length + 2) b).set (l₁.length + 3) 255
      = (l₁ ++ [r, g, b, 255]) ++ R := by
  induction l₁ with
  | nil => rfl
  | cons x l ih =>
      simp only [List.length_cons, List.cons_append, List.set_cons_succ]
      rw [ih]

theorem writeColors_append :
    ∀ (colors : List RGBColor) (l₁ : List Nat),
      writeColors (l₁ ++ List.replicate (4 * colors.length) 0) l₁.length colors
        = l₁ ++ colors.flatMap rgbaQuad := by
  intro colors
  induction colors with
  | nil => intro l₁; simp [writeColors]
  | cons c rest ih =>
      intro l₁
      have hrep : List.replicate (4 * (c :: rest).length) (0 : Nat)
          = 0 :: 0 :: 0 :: 0 :: List.replicate (4 * rest.length) 0 := by
        have h4 : 4 * (c :: rest).length = 4 + 4 * rest.length := by
          simp [List.length_cons]; ring
        rw [h4, List.replicate_add]
        rfl
      rw [hrep]
      simp only [writeColors]
      rw [set_quad l₁ (List.replicate (4 * rest.length) 0) c.red c.green c.blue]
      rw [show l₁.length + 4 = (l₁ ++ [c.red, c.green, c.blue, 255]).length by simp]
      rw [ih (l₁ ++ [c.red, c.green, c.blue, 255])]
      simp [rgbaQuad, List.flatMap_cons, List.append_assoc]

theorem writeColors_eq_flatMap (colors : List RGBColor) :
    writeColors (List.replicate (4 * colors.length) 0) 0 colors
      = colors.flatMap rgbaQuad := by
  have := writeColors_append colors []
  simpa using this

theorem flatMap_rgbaQuad_alpha :
    ∀ (colors : List RGBColor) (k : Nat), k < colors.length →
      (colors.flatMap rgbaQuad).getD (4 * k + 3) 0 = 255 := by
  intro colors
  induction colors with
  | nil => intro k hk; exact absurd hk (Nat.not_lt_zero k)
  | cons c rest ih =>
      intro k hk
      rw [List.flatMap_cons]
      cases k with
      | zero => rfl
      | succ k =>
          have h4 : 4 * (k + 1) + 3 = (4 * k + 3) + 4 := by ring
          rw [h4]
          show (c.red :: c.green :: c.blue :: 255 :: rest.flatMap rgbaQuad).getD ((4*k+3)+4) 0 = 255
          rw [show (4*k+3)+4 = (((4*k+3)+1)+1+1)+1 from rfl]
          rw [List.getD_cons_succ, List.getD_cons_succ, List.getD_cons_succ, List.getD_cons_succ]
          have hk' : k < rest.length := by
            simp [List.length_cons] at hk
            omega
          exact ih k hk'

theorem imageCount_ref (p : ImagePool) (id : Nat) :
    (Image.ref p id).imageCount = p.imageCount :=
  imageCount_modifyImage p id _

/-! ## Claim theorems -/

/-- C1, counterexample: for the 1x2 parent image with bytes
`[0,1,2,3,4,5,6,7]` and the fragment at offset `(row 1, column 0)` of size
1x1, `ImageFragment::data()` does not return the bytes the claim
prescribes (row `y` copied from byte index `(offset.row + y) *
parentWidth * 4`): the code reads from `y * size.width * 4`, ignoring the
offset, so it returns `[0,1,2,3]` instead of `[4,5,6,7]`. -/
theorem fragment_data_ignores_offset_cex :
    ImageFragment.data ⟨⟨[0, 1, 2, 3, 4, 5, 6, 7], ⟨1, 2⟩, 1⟩, ⟨1, 0⟩, ⟨1, 1⟩⟩
      ≠ fragmentDataClaimed ⟨[0, 1, 2, 3, 4, 5, 6, 7], ⟨1, 2⟩, 1⟩ ⟨1, 0⟩ ⟨1, 1⟩ := by
  decide

/-- C1, amended: for every `ImageFragment`, `data()` returns a buffer of
exactly `size.width * size.height * 4` bytes where for every `y` in
`[0, size.height)` the `y`-th row equals the `size.width * 4` bytes of the
parent buffer starting at byte index `y * size.width * 4` — neither the
fragment's offset nor the parent's width enters the source index. -/
theorem fragment_data_rows (f : ImageFragment) :
    f.data.length = f.size.width * f.size.height * 4
    ∧ ∀ y, y < f.size.height →
        ((f.data.drop (y * f.size.width * 4)).take (f.size.width * 4))
          = readBytes f.image.data (y * f.size.width * 4) (f.size.width * 4) := by
  constructor
  · show (ImageFragment.data f).length = _
    unfold ImageFragment.data
    rw [flatMap_range_length _ (f.size.width * 4) (fun y => readBytes_length _ _ _)
      f.size.height]
    ring
  · intro y hy
    show (((ImageFragment.data f).drop _).take _) = _
    unfold ImageFragment.data
    have h := flatMap_range_drop_take f.size.height
      (fun z => readBytes f.image.data (z * f.size.width * 4) (f.size.width * 4))
      (f.size.width * 4) y (fun z => readBytes_length _ _ _) hy
    rw [← Nat.mul_assoc] at h
    exact h

/-- C1, witness: the amended theorem applied to the 1x2 fragment of the
1x2 parent image at offset `(0, 0)`. -/
theorem fragment_data_rows_witness :
    (ImageFragment.data ⟨⟨[0, 1, 2, 3, 4, 5, 6, 7], ⟨1, 2⟩, 1⟩, ⟨0, 0⟩, ⟨1, 2⟩⟩).length = 8
    ∧ ((ImageFragment.data ⟨⟨[0, 1, 2, 3, 4, 5, 6, 7], ⟨1, 2⟩, 1⟩, ⟨0, 0⟩, ⟨1, 2⟩⟩).drop 4).take 4
        = readBytes [0, 1, 2, 3, 4, 5, 6, 7] 4 4 :=
  ⟨(fragment_data_rows ⟨⟨[0, 1, 2, 3, 4, 5, 6, 7], ⟨1, 2⟩, 1⟩, ⟨0, 0⟩, ⟨1, 2⟩⟩).1,
   (fragment_data_rows ⟨⟨[0, 1, 2, 3, 4, 5, 6, 7], ⟨1, 2⟩, 1⟩, ⟨0, 0⟩, ⟨1, 2⟩⟩).2 1 (by decide)⟩

/-- C3, counterexample: a 3-byte buffer for a 1x1 image
(`3 ≠ 1 * 1 * 4`) is accepted by `ImagePool::create` — no
`InvalidImageData` failure exists — and `imageCount()` grows from 0 to 1
rather than staying unchanged. -/
theorem create_mismatched_buffer_cex :
    ([0, 0, 0] : List Nat).length ≠ 1 * 1 * 4
    ∧ (ImagePool.create ⟨[], 0⟩ [0, 0, 0] ⟨1, 1⟩).fst.imageCount
        = (⟨[], 0⟩ : ImagePool).imageCount + 1 := by
  decide

/-- C3, amended: `ImagePool::create(buffer, size)` performs no
buffer-length validation: for every buffer and size, matching or not, the
call succeeds, `imageCount()` increases by exactly one, and the appended
image holds the given buffer and size with reference count 1. -/
theorem create_always_appends (p : ImagePool) (data : List Nat) (size : Size) :
    (p.create data size).fst.imageCount = p.imageCount + 1
    ∧ (p.create data size).fst.images.getLast? = some (p.nextId, ⟨data, size, 1⟩) := by
  constructor
  · show (Image.ref _ _).imageCount = _
    rw [imageCount_ref]
    simp [ImagePool.imageCount]
  · show (Image.ref _ _).images.getLast? = _
    unfold Image.ref ImagePool.modifyImage
    simp only [List.map_append, List.map_cons, List.map_nil]
    rw [List.getLast?_concat]
    simp

/-- C4, counterexample: on a pool holding one image whose reference count
is already 0, `Image::unref()` silently decrements the count to -1,
invokes no teardown, and raises no fatal error — refuting the claim that
underflow is treated as a fatal invariant violation. -/
theorem unref_on_zero_cex :
    (Image.unref ⟨[(0, ⟨[], ⟨0, 0⟩, 0⟩)], 1⟩ 0).fst.refCountOf 0 = some (-1)
    ∧ (Image.unref ⟨[(0, ⟨[], ⟨0, 0⟩, 0⟩)], 1⟩ 0).snd = 0 := by
  decide

/-- C4, amended: calling `unref()` on an Image whose refcount is already 0
is not detected: the count is silently decremented to -1, no teardown is
invoked, and the image stays in the pool (the `refCount_ == 0` test
misses the underflow because the decremented value is -1). -/
theorem unref_on_zero_silently_underflows (p : ImagePool) (id : Nat)
    (h : p.refCountOf id = some 0) :
    (Image.unref p id).fst.refCountOf id = some (-1)
    ∧ (Image.unref p id).snd = 0
    ∧ (Image.unref p id).fst.imageCount = p.imageCount := by
  rw [unref_of_ne_one p id 0 h (by norm_num)]
  refine ⟨?_, rfl, imageCount_decRefCount p id⟩
  rw [refCountOf_decRefCount, h, Option.map_some']
  norm_num

/-- C4, witness: the amended theorem applied to a pool holding one image
with reference count 0. -/
theorem unref_on_zero_silently_underflows_witness :
    (Image.unref ⟨[(0, ⟨[], ⟨0, 0⟩, 0⟩)], 1⟩ 0).fst.refCountOf 0 = some (-1)
    ∧ (Image.unref ⟨[(0, ⟨[], ⟨0, 0⟩, 0⟩)], 1⟩ 0).snd = 0
    ∧ (Image.unref ⟨[(0, ⟨[], ⟨0, 0⟩, 0⟩)], 1⟩ 0).fst.imageCount
        = (⟨[(0, ⟨[], ⟨0, 0⟩, 0⟩)], 1⟩ : ImagePool).imageCount :=
  unref_on_zero_silently_underflows ⟨[(0, ⟨[], ⟨0, 0⟩, 0⟩)], 1⟩ 0 (by decide)

/-- C5, counterexample: for a 2x2 image spanned over 2x2 grid cells, the
position `(5, 7)` lies far outside `[0, 2) x [0, 2)`, yet
`RasterizedImage::fragment` does not fail with `OutOfRange`: it returns an
ordinary fragment with offset `(5 * 2, 7 * (2 / 2)) = (10, 7)`. -/
theorem fragment_out_of_range_cex :
    RasterizedImage.fragment ⟨⟨List.range 16, ⟨2, 2⟩, 1⟩, ⟨2, 2⟩⟩ ⟨5, 7⟩
      = ⟨⟨List.range 16, ⟨2, 2⟩, 1⟩, ⟨10, 7⟩, ⟨2, 2⟩⟩ := by
  decide

/-- C5, amended: for every position — in range or not —
`RasterizedImage::fragment(position)` returns an `ImageFragment` with
pixel offset `(position.row * image.width(), position.column *
(image.width() / cellSpan.width))` and size `cellSpan`, whose `data()`
buffer has exactly `cellSpan.width * cellSpan.height * 4` bytes; the
source performs no range check, so no `OutOfRange` failure exists. -/
theorem fragment_geometry (r : RasterizedImage) (pos : Coordinate) :
    (r.fragment pos).offset
        = ⟨pos.row * r.image.width, pos.column * (r.image.width / r.cellSpan.width)⟩
    ∧ (r.fragment pos).size = r.cellSpan
    ∧ (r.fragment pos).data.length = r.cellSpan.width * r.cellSpan.height * 4 := by
  refine ⟨rfl, rfl, ?_⟩
  show (ImageFragment.data _).length = _
  simp only [RasterizedImage.fragment, ImageFragment.data]
  rw [flatMap_range_length _ (r.cellSpan.width * 4) (fun y => readBytes_length _ _ _)
    r.cellSpan.height]
  ring

/-- C2: starting from the pool's initial reference (count 1), N
copy-constructions of an `ImageRef` followed by M handle destructions
(M ≤ N) leave `refCount()` at `1 + N - M`; and when a decrement brings the
count to exactly 0, the teardown (the pool's `remove`, wired by `create`)
runs exactly once, synchronously inside `unref()` — the purely functional
embedding returns only after it — and `imageCount()` decreases by exactly
one. -/
theorem refcount_after_copies_and_drops :
    (∀ (p : ImagePool) (id N M : Nat), p.refCountOf id = some 1 → M ≤ N →
      ((destroyStep id)^[M] ((copyStep id)^[N] p)).refCountOf id
        = some (1 + (N : Int) - (M : Int)))
    ∧ (∀ (p : ImagePool) (id : Nat), p.refCountOf id = some 1 →
      (Image.unref p id).snd = 1
      ∧ (Image.unref p id).fst.imageCount + 1 = p.imageCount) := by
  constructor
  · intro p id N M h hMN
    have h1 : ((copyStep id)^[N] p).refCountOf id = some (1 + (N : Int)) :=
      refCountOf_copyStep_iterate p id 1 N h
    exact refCountOf_destroyStep_iterate id M ((copyStep id)^[N] p) (1 + (N : Int)) h1
      (by omega)
  · intro p id h
    rw [unref_of_one p id h]
    refine ⟨rfl, ?_⟩
    have h0 : (decRefCount p id).refCountOf id = some 0 := by
      rw [refCountOf_decRefCount, h, Option.map_some']
      norm_num
    obtain ⟨img, himg, -⟩ := Option.map_eq_some'.mp h0
    have hc := imageCount_remove_of_present (decRefCount p id) id img himg
    rw [imageCount_decRefCount] at hc
    exact hc

/-- C2, witness: a pool holding one image at count 1, two copies and one
destruction give count 2; dropping the single initial reference tears the
image down once and shrinks the pool from 1 to 0 images. -/
theorem refcount_after_copies_and_drops_witness :
    ((destroyStep 0)^[1] ((copyStep 0)^[2]
        (⟨[(0, ⟨[], ⟨0, 0⟩, 1⟩)], 1⟩ : ImagePool))).refCountOf 0
        = some (1 + (2 : Int) - (1 : Int))
    ∧ (Image.unref (⟨[(0, ⟨[], ⟨0, 0⟩, 1⟩)], 1⟩ : ImagePool) 0).snd = 1
    ∧ (Image.unref (⟨[(0, ⟨[], ⟨0, 0⟩, 1⟩)], 1⟩ : ImagePool) 0).fst.imageCount + 1
        = (⟨[(0, ⟨[], ⟨0, 0⟩, 1⟩)], 1⟩ : ImagePool).imageCount :=
  ⟨refcount_after_copies_and_drops.1 ⟨[(0, ⟨[], ⟨0, 0⟩, 1⟩)], 1⟩ 0 2 1 (by decide) (by decide),
   (refcount_after_copies_and_drops.2 ⟨[(0, ⟨[], ⟨0, 0⟩, 1⟩)], 1⟩ 0 (by decide)).1,
   (refcount_after_copies_and_drops.2 ⟨[(0, ⟨[], ⟨0, 0⟩, 1⟩)], 1⟩ 0 (by decide)).2⟩

/-- C6: with both cell span dimensions positive, `cellSize()` is the
per-axis truncating division of the image size by the span; with either
dimension zero it fails with `InvalidCellSpan`. -/
theorem cellSize_div_or_invalid (r : RasterizedImage) :
    (r.cellSpan.width ≠ 0 → r.cellSpan.height ≠ 0 →
      r.cellSize = Except.ok
        ⟨r.image.width / r.cellSpan.width, r.image.height / r.cellSpan.height⟩)
    ∧ ((r.cellSpan.width = 0 ∨ r.cellSpan.height = 0) →
      r.cellSize = Except.error ImageError.InvalidCellSpan) := by
  constructor
  · intro hw hh
    unfold RasterizedImage.cellSize Size.divE
    rw [if_neg (by tauto)]
    rfl
  · intro h
    unfold RasterizedImage.cellSize Size.divE
    rw [if_pos h]

/-- C6, witness: a 2x2 image over a 2x1 span has cell size (1, 2); a span
with zero width fails with `InvalidCellSpan`. -/
theorem cellSize_div_or_invalid_witness :
    RasterizedImage.cellSize ⟨⟨List.range 16, ⟨2, 2⟩, 1⟩, ⟨2, 1⟩⟩ = Except.ok ⟨1, 2⟩
    ∧ RasterizedImage.cellSize ⟨⟨List.range 16, ⟨2, 2⟩, 1⟩, ⟨0, 2⟩⟩
        = Except.error ImageError.InvalidCellSpan :=
  ⟨(cellSize_div_or_invalid ⟨⟨List.range 16, ⟨2, 2⟩, 1⟩, ⟨2, 1⟩⟩).1 (by decide) (by decide),
   (cellSize_div_or_invalid ⟨⟨List.range 16, ⟨2, 2⟩, 1⟩, ⟨0, 2⟩⟩).2 (Or.inl rfl)⟩

/-- C7, counterexample: two RGB colors for a 1x1 image (`2 ≠ 1 * 1`) are
accepted by the RGB overload of `ImagePool::create` — no `SizeMismatch`
failure exists — and the pool grows by one instead of staying unchanged. -/
theorem createRGB_mismatched_cex :
    ([⟨1, 2, 3⟩, ⟨4, 5, 6⟩] : List RGBColor).length ≠ 1 * 1
    ∧ (ImagePool.createRGB ⟨[], 0⟩ [⟨1, 2, 3⟩, ⟨4, 5, 6⟩] ⟨1, 1⟩).fst.imageCount
        = (⟨[], 0⟩ : ImagePool).imageCount + 1 := by
  decide

/-- C7, amended: the RGB overload of `ImagePool::create` performs no
color-array-length validation: for every color array and size the call
succeeds and `imageCount()` grows by exactly one; the buffer it builds
always has `size.width * size.height * 4` bytes (a mismatched color array
silently yields a zero-padded buffer, excess writes being dropped). -/
theorem createRGB_always_appends (p : ImagePool) (colors : List RGBColor) (size : Size) :
    (p.createRGB colors size).fst.imageCount = p.imageCount + 1
    ∧ (writeColors (List.replicate (size.width * size.height * 4) 0) 0 colors).length
        = size.width * size.height * 4 := by
  constructor
  · unfold ImagePool.createRGB ImagePool.create
    show (Image.ref _ _).imageCount = _
    rw [imageCount_ref]
    simp [ImagePool.imageCount]
  · rw [writeColors_length]
    simp

/-- C8: when the color array's length matches `w * h`, the created image
carries size `(w, h)` and exactly the color array expanded triple-by-triple
into RGBA quads, every pixel's alpha byte being 255. -/
theorem createRGB_expands_to_rgba (p : ImagePool) (colors : List RGBColor) (w h : Nat)
    (hlen : colors.length = w * h) :
    (p.createRGB colors ⟨w, h⟩).fst.images.getLast?
        = some (p.nextId, ⟨colors.flatMap rgbaQuad, ⟨w, h⟩, 1⟩)
    ∧ ∀ k, k < w * h → (colors.flatMap rgbaQuad).getD (4 * k + 3) 0 = 255 := by
  constructor
  · have hbuf : writeColors (List.replicate (w * h * 4) 0) 0 colors
        = colors.flatMap rgbaQuad := by
      rw [show w * h * 4 = 4 * colors.length by rw [hlen]; ring]
      exact writeColors_eq_flatMap colors
    unfold ImagePool.createRGB ImagePool.create Image.ref ImagePool.modifyImage
    simp only [List.map_append, List.map_cons, List.map_nil]
    rw [List.getLast?_concat]
    simp [hbuf]
  · intro k hk
    exact flatMap_rgbaQuad_alpha colors k (by omega)

/-- C8, witness: two colors for a 2x1 image expand to the 8-byte RGBA
buffer `[1,2,3,255,4,5,6,255]`; the second pixel's alpha byte is 255. -/
theorem createRGB_expands_to_rgba_witness :
    (ImagePool.createRGB ⟨[], 0⟩ [⟨1, 2, 3⟩, ⟨4, 5, 6⟩] ⟨2, 1⟩).fst.images.getLast?
        = some (0, ⟨[1, 2, 3, 255, 4, 5, 6, 255], ⟨2, 1⟩, 1⟩)
    ∧ (([⟨1, 2, 3⟩, ⟨4, 5, 6⟩] : List RGBColor).flatMap rgbaQuad).getD (4 * 1 + 3) 0 = 255 :=
  ⟨(createRGB_expands_to_rgba ⟨[], 0⟩ [⟨1, 2, 3⟩, ⟨4, 5, 6⟩] 2 1 (by decide)).1,
   (createRGB_expands_to_rgba ⟨[], 0⟩ [⟨1, 2, 3⟩, ⟨4, 5, 6⟩] 2 1 (by decide)).2 1 (by decide)⟩

/-- C9: `ImageRenderer::clearCache()` leaves the atlas cache empty, is
idempotent, and — calling only `atlas_.clear()` — never touches the
`ImagePool`: after any number of calls `imageCount()` is unchanged. -/
theorem clearCache_empties_and_preserves_pool (r : ImageRenderer) (n : Nat) :
    (r.clearCache).atlas = []
    ∧ r.clearCache.clearCache = r.clearCache
    ∧ (ImageRenderer.clearCache^[n] r).imagePool.imageCount = r.imagePool.imageCount := by
  refine ⟨rfl, rfl, ?_⟩
  induction n with
  | zero => rfl
  | succ m ih =>
      rw [Function.iterate_succ_apply']
      exact ih

/-- C10: move-assigning onto a handle that refers to image `a` (from a
distinct source handle `v`, held on a different image or on none) leaves
`a`'s reference count — indeed the whole pool — untouched: unlike copy
assignment and destruction, `ImageRef::operator=(ImageRef&&)` never calls
`unref()` on the previously-held referent, so the reference held on `a`
leaks; afterwards the target holds `v`'s pointer and the source is null. -/
theorem moveAssign_never_unrefs (p : ImagePool) (a : Nat) (v : Option Nat) :
    (ImageRef.moveAssign p false (some a) v).1.refCountOf a = p.refCountOf a
    ∧ (ImageRef.moveAssign p false (some a) v).2.1 = v
    ∧ (ImageRef.moveAssign p false (some a) v).2.2 = none :=
  ⟨rfl, rfl, rfl⟩

end terminal
